import Mathlib

/-!
Shallow embedding of the persistence core of `streamlit_app.py`
(Kinder-Joy-Label): record validation, blank-row filtering, last-wins
deduplication (`drop_duplicates(subset=..., keep='last')`), the
merge-and-save path of `main`, and a file-store model of `save_backup`
and `save_data`.

A table row is five cells; a missing cell (pandas `NaN`, produced by
`read_csv` for empty fields) is modelled as `none`.  `df.astype(str)`
renders a missing cell as the string `"nan"`, which the embedding
reproduces in `cellToStr`.
-/

namespace KinderJoy

/-- One row of the labeled-data table: the five columns
`timestamp, toy, balls_code, toy_code, location_state`.
`none` models a missing value (pandas `NaN`). -/
structure Row where
  timestamp : Option String
  toy : Option String
  balls_code : Option String
  toy_code : Option String
  location_state : Option String
deriving DecidableEq, Repr

/-- The 5-field identity key used by `drop_duplicates(subset=[...])`:
all five columns of the row. -/
def rowKey (r : Row) :
    Option String × Option String × Option String × Option String × Option String :=
  (r.timestamp, r.toy, r.balls_code, r.toy_code, r.location_state)

theorem rowKey_inj {r s : Row} (h : rowKey r = rowKey s) : r = s := by
  cases r; cases s
  simp only [rowKey, Prod.mk.injEq] at h
  obtain ⟨h1, h2, h3, h4, h5⟩ := h
  simp_all

/-- Embedding of `df.dropna(how='all')`: it drops a row iff every cell is missing. -/
def isAllNaN (r : Row) : Bool :=
  r.timestamp.isNone && r.toy.isNone && r.balls_code.isNone &&
    r.toy_code.isNone && r.location_state.isNone

/-- Embedding of `astype(str)`: a present cell is its string, a missing cell (NaN)
is rendered as the string `"nan"`. -/
def cellToStr : Option String → String
  | none => "nan"
  | some s => s

/-- Python `str.strip()` (and pandas `.str.strip()`): remove leading
and trailing whitespace.  Defined on the underlying character list so
that it evaluates by kernel reduction. -/
def strip (s : String) : String :=
  String.mk (((s.data.dropWhile Char.isWhitespace).reverse.dropWhile
    Char.isWhitespace).reverse)

/-- One cell of the `astype(str) ... .str.strip().eq('')` test. -/
def cellBlank (c : Option String) : Bool :=
  strip (cellToStr c) == ""

/-- Embedding of `df.astype(str).apply(lambda x: x.str.strip().eq('')).all(axis=1)`:
every stringified cell is blank after trimming. -/
def isAllBlank (r : Row) : Bool :=
  cellBlank r.timestamp && cellBlank r.toy && cellBlank r.balls_code &&
    cellBlank r.toy_code && cellBlank r.location_state

/-- The two-stage empty-row filter used identically in
`load_existing_data` (lines 41-43) and `save_data` (lines 79-80):
first `dropna(how='all')`, then drop rows whose stringified cells all
trim to the empty string. -/
def filter_empty_rows (rows : List Row) : List Row :=
  (rows.filter (fun r => !(isAllNaN r))).filter (fun r => !(isAllBlank r))

/-- A row survives `filter_empty_rows` iff it is not all-NaN and not
all-blank-stringified. -/
def rowKept (r : Row) : Bool :=
  !(isAllNaN r) && !(isAllBlank r)

theorem filter_empty_rows_eq (rows : List Row) :
    filter_empty_rows rows = rows.filter rowKept := by
  induction rows with
  | nil => rfl
  | cons a l ih =>
    simp only [filter_empty_rows, rowKept, List.filter] at *
    cases h1 : isAllNaN a <;> cases h2 : isAllBlank a <;> simp_all

theorem mem_filter_empty_rows {r : Row} {rows : List Row} :
    r ∈ filter_empty_rows rows ↔ r ∈ rows ∧ rowKept r = true := by
  rw [filter_empty_rows_eq]
  simp [List.mem_filter]

/-- Membership test on the 5-field key, as `drop_duplicates` compares
rows: does some row of `l` agree with `r` on all five key columns? -/
def keyMem (r : Row) (l : List Row) : Bool :=
  l.any (fun s => decide (rowKey s = rowKey r))

theorem keyMem_iff {r : Row} {l : List Row} : keyMem r l = true ↔ r ∈ l := by
  simp only [keyMem, List.any_eq_true, decide_eq_true_eq]
  constructor
  · rintro ⟨s, hs, hk⟩
    exact (rowKey_inj hk) ▸ hs
  · intro h
    exact ⟨r, h, rfl⟩

theorem keyMem_eq_decide (r : Row) (l : List Row) :
    keyMem r l = decide (r ∈ l) := by
  by_cases h : r ∈ l
  · rw [keyMem_iff.mpr h, decide_eq_true h]
  · rw [decide_eq_false h]
    cases hk : keyMem r l
    · rfl
    · exact absurd (keyMem_iff.mp hk) h

/-- Embedding of `df.drop_duplicates(subset=[the five columns], keep='last')`: a row
is kept iff no later row has the same 5-field key; kept rows stay in
their original relative order. -/
def drop_duplicates : List Row → List Row
  | [] => []
  | a :: l => if keyMem a l then drop_duplicates l else a :: drop_duplicates l

theorem drop_duplicates_cons (a : Row) (l : List Row) :
    drop_duplicates (a :: l) =
      if a ∈ l then drop_duplicates l else a :: drop_duplicates l := by
  rw [drop_duplicates, keyMem_eq_decide]
  by_cases h : a ∈ l <;> simp [h]

theorem mem_drop_duplicates {a : Row} {l : List Row} :
    a ∈ drop_duplicates l ↔ a ∈ l := by
  induction l with
  | nil => simp [drop_duplicates]
  | cons b l ih =>
    rw [drop_duplicates_cons]
    by_cases h : b ∈ l
    · simp only [if_pos h, ih, List.mem_cons]
      constructor
      · exact Or.inr
      · rintro (rfl | hm)
        · exact h
        · exact hm
    · simp [if_neg h, List.mem_cons, ih]

theorem drop_duplicates_nodup (l : List Row) : (drop_duplicates l).Nodup := by
  induction l with
  | nil => exact List.nodup_nil
  | cons a l ih =>
    rw [drop_duplicates_cons]
    by_cases h : a ∈ l
    · simpa [h] using ih
    · rw [if_neg h]
      exact List.nodup_cons.mpr ⟨fun hm => h (mem_drop_duplicates.mp hm), ih⟩

theorem drop_duplicates_of_nodup {l : List Row} (h : l.Nodup) :
    drop_duplicates l = l := by
  induction l with
  | nil => rfl
  | cons a l ih =>
    obtain ⟨ha, hl⟩ := List.nodup_cons.mp h
    rw [drop_duplicates_cons, if_neg ha, ih hl]

/-- Effect of `keep='last'` on a list ending in `r`: every earlier row equal to
`r` on the key (hence equal to `r`, the key being all five columns) is
dropped, and `r` stays at the end. -/
theorem drop_duplicates_append_last (l : List Row) (r : Row) :
    drop_duplicates (l ++ [r]) =
      drop_duplicates (l.filter (fun a => !(decide (a = r)))) ++ [r] := by
  induction l with
  | nil => simp [drop_duplicates, keyMem]
  | cons a l ih =>
    by_cases har : a = r
    · subst har
      have hmem : a ∈ l ++ [a] := List.mem_append_right l (List.mem_singleton.mpr rfl)
      rw [List.cons_append, drop_duplicates_cons, if_pos hmem, ih]
      simp
    · have hm : a ∈ l ++ [r] ↔ a ∈ l := by
        simp only [List.mem_append, List.mem_singleton]
        exact ⟨fun h => h.elim id (fun h => absurd h har), Or.inl⟩
      have hfa : (a :: l).filter (fun a => !(decide (a = r))) =
          a :: l.filter (fun a => !(decide (a = r))) := by
        simp [List.filter, har]
      rw [List.cons_append, drop_duplicates_cons, hfa, drop_duplicates_cons]
      have hmf : a ∈ l.filter (fun a => !(decide (a = r))) ↔ a ∈ l := by
        simp [List.mem_filter, har]
      by_cases hal : a ∈ l
      · rw [if_pos (hm.mpr hal), if_pos (hmf.mpr hal), ih]
      · rw [if_neg (fun h => hal (hm.mp h)), if_neg (fun h => hal (hmf.mp h)), ih,
          List.cons_append]

/-- The pure content of `save_data` (lines 78-83): empty-row filter,
then `drop_duplicates` on the five columns with `keep='last'`; the
result is what gets written to `labeled_data.csv` and to the full
snapshot. -/
def save_data_rows (df : List Row) : List Row :=
  drop_duplicates (filter_empty_rows df)

/-- The merge path of `main` (lines 200-210) composed with `save_data`:
concatenate the freshly loaded rows with the one new row, deduplicate
(lines 201-207), then hand the result to `save_data`, which filters
blank rows and deduplicates again before writing. -/
def mergeAndSave (existing : List Row) (incoming : Row) : List Row :=
  save_data_rows (drop_duplicates (existing ++ [incoming]))

theorem mem_mergeAndSave {s : Row} {existing : List Row} {incoming : Row} :
    s ∈ mergeAndSave existing incoming ↔
      rowKept s = true ∧ s ∈ existing ++ [incoming] := by
  rw [mergeAndSave, save_data_rows, mem_drop_duplicates, mem_filter_empty_rows,
    mem_drop_duplicates]
  exact ⟨fun h => ⟨h.2, h.1⟩, fun h => ⟨h.2, h.1⟩⟩

theorem mergeAndSave_nodup (existing : List Row) (incoming : Row) :
    (mergeAndSave existing incoming).Nodup :=
  drop_duplicates_nodup _

/-- Normal form of `mergeAndSave`: the deduplicated, blank-filtered
rows of `existing` that differ from `incoming`, followed by `incoming`
itself when it survives the blank filter. -/
theorem mergeAndSave_eq (existing : List Row) (incoming : Row) :
    mergeAndSave existing incoming =
      (if rowKept incoming = true then
        drop_duplicates (filter_empty_rows
          (drop_duplicates (existing.filter (fun a => !(decide (a = incoming)))))) ++ [incoming]
      else
        drop_duplicates (filter_empty_rows
          (drop_duplicates (existing.filter (fun a => !(decide (a = incoming))))))) := by
  rw [mergeAndSave, save_data_rows, drop_duplicates_append_last,
    filter_empty_rows_eq, List.filter_append, ← filter_empty_rows_eq]
  by_cases hk : rowKept incoming = true
  · rw [if_pos hk]
    have hfi : [incoming].filter rowKept = [incoming] := by simp [hk]
    rw [hfi, drop_duplicates_append_last]
    have hno : (filter_empty_rows
        (drop_duplicates (existing.filter (fun a => !(decide (a = incoming)))))).filter
        (fun a => !(decide (a = incoming))) =
        filter_empty_rows
          (drop_duplicates (existing.filter (fun a => !(decide (a = incoming))))) := by
      rw [List.filter_eq_self]
      intro a ha
      have ha2 := mem_drop_duplicates.mp (mem_filter_empty_rows.mp ha).1
      have := (List.mem_filter.mp ha2).2
      simpa using this
    rw [hno]
  · rw [if_neg hk]
    have hk2 : rowKept incoming = false := by
      cases h : rowKept incoming
      · rfl
      · exact absurd h hk
    have hfi : [incoming].filter rowKept = [] := by simp [hk2]
    rw [hfi, List.append_nil]

/-- C2: merging the identical record twice yields the same dataset as
merging it once: `mergeAndSave (mergeAndSave D r) r = mergeAndSave D r`
(equality as lists, hence as record sets); the second application of
the same record leaves exactly one stored copy. -/
theorem mergeAndSave_idempotent (D : List Row) (r : Row) :
    mergeAndSave (mergeAndSave D r) r = mergeAndSave D r := by
  set Y := drop_duplicates (filter_empty_rows
    (drop_duplicates (D.filter (fun a => !(decide (a = r)))))) with hY
  have hYnodup : Y.Nodup := drop_duplicates_nodup _
  have hYkept : ∀ a ∈ Y, rowKept a = true := by
    intro a ha
    exact (mem_filter_empty_rows.mp (mem_drop_duplicates.mp ha)).2
  have hYne : ∀ a ∈ Y, a ≠ r := by
    intro a ha
    have h1 := mem_drop_duplicates.mp (mem_filter_empty_rows.mp (mem_drop_duplicates.mp ha)).1
    have h2 := (List.mem_filter.mp h1).2
    simpa using h2
  have hfY : Y.filter (fun a => !(decide (a = r))) = Y :=
    List.filter_eq_self.mpr (fun a ha => by simpa using hYne a ha)
  have hfK : filter_empty_rows Y = Y := by
    rw [filter_empty_rows_eq]
    exact List.filter_eq_self.mpr (fun a ha => hYkept a ha)
  have hdY : drop_duplicates Y = Y := drop_duplicates_of_nodup hYnodup
  by_cases hk : rowKept r = true
  · have hM : mergeAndSave D r = Y ++ [r] := by
      rw [mergeAndSave_eq, if_pos hk, ← hY]
    have hfYr : (Y ++ [r]).filter (fun a => !(decide (a = r))) = Y := by
      rw [List.filter_append, hfY]
      simp
    rw [hM, mergeAndSave_eq, if_pos hk, hfYr, hdY, hfK, hdY]
  · have hM : mergeAndSave D r = Y := by
      rw [mergeAndSave_eq, if_neg hk, ← hY]
    rw [hM, mergeAndSave_eq, if_neg hk, hfY, hdY, hfK, hdY]

/-- Number of rows of `rows` that agree with `r` on the 5-field
identity key. -/
def countKey (rows : List Row) (r : Row) : Nat :=
  (rows.filter (fun s => decide (rowKey s = rowKey r))).length

theorem countKey_eq (rows : List Row) (r : Row) :
    countKey rows r = (rows.filter (fun s => decide (s = r))).length := by
  unfold countKey
  congr 1
  apply List.filter_congr
  intro s _hs
  apply decide_eq_decide.mpr
  exact ⟨fun h => rowKey_inj h, fun h => h ▸ rfl⟩

theorem length_filter_eq_one_of_nodup {l : List Row} {r : Row}
    (hn : l.Nodup) (hm : r ∈ l) :
    (l.filter (fun s => decide (s = r))).length = 1 := by
  induction l with
  | nil => cases hm
  | cons a l ih =>
    obtain ⟨hna, hnl⟩ := List.nodup_cons.mp hn
    by_cases har : a = r
    · subst har
      have hnil : l.filter (fun s => decide (s = a)) = [] := by
        rw [List.filter_eq_nil_iff]
        intro s hs
        simp only [decide_eq_true_eq]
        exact fun h => hna (h ▸ hs)
      simp [List.filter_cons, hnil]
    · have hm2 : r ∈ l := by
        rcases List.mem_cons.mp hm with h | h
        · exact absurd h.symm har
        · exact h
      simp [List.filter_cons, har, ih hnl hm2]

theorem mem_of_countKey_pos {rows : List Row} {r : Row}
    (h : 0 < countKey rows r) : r ∈ rows := by
  rw [countKey_eq] at h
  rcases List.exists_mem_of_length_pos h with ⟨s, hs⟩
  have h2 := List.mem_filter.mp hs
  have heq : s = r := by simpa using h2.2
  exact heq ▸ h2.1

/-- C1: if the concatenated input `existing ++ [incoming]` contains at
least two rows equal to `r` on the 5-field key, and `r` is a real
record (it survives the empty-row filter — guaranteed for every
validated record, whose `toy` is a catalog name), then the dataset
written by `mergeAndSave` contains exactly one row with that key, and
it is `r` itself (the key being all five columns, every occurrence —
in particular the last one — is the row `r`).  Moreover no two rows
differing on the key are ever merged: every surviving-filter row of the
input is still present in the output. -/
theorem mergeAndSave_dedup_correct (existing : List Row) (incoming r : Row)
    (hdup : 2 ≤ countKey (existing ++ [incoming]) r) (hkept : rowKept r = true) :
    countKey (mergeAndSave existing incoming) r = 1 ∧
      r ∈ mergeAndSave existing incoming ∧
      ∀ s, s ∈ existing ++ [incoming] → rowKept s = true →
        s ∈ mergeAndSave existing incoming := by
  have hmem : r ∈ existing ++ [incoming] :=
    mem_of_countKey_pos (lt_of_lt_of_le (by norm_num) hdup)
  have hout : r ∈ mergeAndSave existing incoming := mem_mergeAndSave.mpr ⟨hkept, hmem⟩
  refine ⟨?_, hout, fun s hs hk => mem_mergeAndSave.mpr ⟨hk, hs⟩⟩
  rw [countKey_eq]
  exact length_filter_eq_one_of_nodup (mergeAndSave_nodup existing incoming) hout

/-- A valid accepted record, used to instantiate theorems. -/
def sampleRecordA : Row :=
  ⟨some "2024-01-01 10:00:00", some "Nancy", some "b1", some "c1", some ""⟩

/-- A second valid record, differing from `sampleRecordA` on the key. -/
def sampleRecordB : Row :=
  ⟨some "2024-01-01 10:00:01", some "Mike", some "b2", some "c2", some "CZ"⟩

/-- A third valid record, differing from both sample records. -/
def sampleRecordC : Row :=
  ⟨some "2024-01-01 09:59:59", some "Lucas", some "b3", some "c3", some ""⟩

theorem mergeAndSave_dedup_correct_witness :
    2 ≤ countKey ([sampleRecordA] ++ [sampleRecordA]) sampleRecordA ∧
      countKey (mergeAndSave [sampleRecordA] sampleRecordA) sampleRecordA = 1 ∧
      sampleRecordA ∈ mergeAndSave [sampleRecordA] sampleRecordA :=
  ⟨by decide,
    (mergeAndSave_dedup_correct [sampleRecordA] sampleRecordA sampleRecordA
      (by decide) (by decide)).1,
    (mergeAndSave_dedup_correct [sampleRecordA] sampleRecordA sampleRecordA
      (by decide) (by decide)).2.1⟩

/-- The in-memory dataset: the column header together with the rows.
`pd.DataFrame(columns=[...])` is `⟨cols, []⟩`. -/
structure Dataset where
  columns : List String
  rows : List Row
deriving DecidableEq, Repr

/-- The five-column schema used by the empty frames of
`load_existing_data` (lines 47-48). -/
def SCHEMA_COLUMNS : List String :=
  ["timestamp", "toy", "balls_code", "toy_code", "location_state"]

/-- Embedding of `load_existing_data` (lines 34-48).  The argument is the state of
the canonical file: `none` — `labeled_data.csv` does not exist;
`some none` — it exists but `pd.read_csv` raises (locked/corrupt);
`some (some d)` — reading yields the table `d`.  On success the two
empty-row filters are applied to the rows; on any failure an empty
five-column frame is returned instead of propagating the error. -/
def load_existing_data : Option (Option Dataset) → Dataset
  | some (some d) => ⟨d.columns, filter_empty_rows d.rows⟩
  | some none => ⟨SCHEMA_COLUMNS, []⟩
  | none => ⟨SCHEMA_COLUMNS, []⟩

/-- Two sequential submissions: merge-and-save `r1` into `D`, re-load
the saved result from the canonical file, then merge-and-save `r2`. -/
def two_caller_merge (D : List Row) (r1 r2 : Row) : List Row :=
  mergeAndSave
    (load_existing_data (some (some ⟨SCHEMA_COLUMNS, mergeAndSave D r1⟩))).rows r2

/-- C3: if `r1` and `r2` differ on the 5-field key and both survive
the empty-row filter (true of every validated record), then after
merging and saving `r1`, re-loading, and merging and saving `r2`, the
final dataset contains both `r1` and `r2`, and every original row of
`D` that survives the filter and differs in key from both is still
present. -/
theorem no_lost_update_disjoint (D : List Row) (r1 r2 : Row)
    (_hne : rowKey r1 ≠ rowKey r2)
    (h1 : rowKept r1 = true) (h2 : rowKept r2 = true) :
    r1 ∈ two_caller_merge D r1 r2 ∧ r2 ∈ two_caller_merge D r1 r2 ∧
      ∀ s ∈ D, rowKept s = true → rowKey s ≠ rowKey r1 → rowKey s ≠ rowKey r2 →
        s ∈ two_caller_merge D r1 r2 := by
  have hload : (load_existing_data
      (some (some ⟨SCHEMA_COLUMNS, mergeAndSave D r1⟩))).rows =
      filter_empty_rows (mergeAndSave D r1) := rfl
  have hr1L : r1 ∈ filter_empty_rows (mergeAndSave D r1) :=
    mem_filter_empty_rows.mpr
      ⟨mem_mergeAndSave.mpr ⟨h1, List.mem_append_right D (List.mem_singleton.mpr rfl)⟩, h1⟩
  refine ⟨?_, ?_, ?_⟩
  · unfold two_caller_merge
    rw [hload]
    exact mem_mergeAndSave.mpr ⟨h1, List.mem_append_left _ hr1L⟩
  · unfold two_caller_merge
    rw [hload]
    exact mem_mergeAndSave.mpr ⟨h2, List.mem_append_right _ (List.mem_singleton.mpr rfl)⟩
  · intro s hs hks _ _
    unfold two_caller_merge
    rw [hload]
    have hsM : s ∈ mergeAndSave D r1 :=
      mem_mergeAndSave.mpr ⟨hks, List.mem_append_left _ hs⟩
    exact mem_mergeAndSave.mpr
      ⟨hks, List.mem_append_left _ (mem_filter_empty_rows.mpr ⟨hsM, hks⟩)⟩

theorem no_lost_update_disjoint_witness :
    sampleRecordA ∈ two_caller_merge [sampleRecordC] sampleRecordA sampleRecordB ∧
      sampleRecordB ∈ two_caller_merge [sampleRecordC] sampleRecordA sampleRecordB ∧
      sampleRecordC ∈ two_caller_merge [sampleRecordC] sampleRecordA sampleRecordB :=
  ⟨(no_lost_update_disjoint [sampleRecordC] sampleRecordA sampleRecordB
      (by decide) (by decide) (by decide)).1,
    (no_lost_update_disjoint [sampleRecordC] sampleRecordA sampleRecordB
      (by decide) (by decide) (by decide)).2.1,
    (no_lost_update_disjoint [sampleRecordC] sampleRecordA sampleRecordB
      (by decide) (by decide) (by decide)).2.2 sampleRecordC (by decide)
      (by decide) (by decide) (by decide)⟩

/-- The fixed toy catalog (lines 15-21), 24 names. -/
def TOYS : List String :=
  ["Nancy", "Mike", "Lucas", "Demogordon", "Steve", "Eleven", "Vecna",
   "Eleven Down", "Max Down", "Eleven clip", "Demogordon pen",
   "Steven and Robin pen", "Eica kabel", "Demogordon clip", "Will", "Max",
   "Dustin", "Hopper", "Will Donw", "Steve Down", "Eddie Down",
   "Dustin Down", "Hopper Down", "Robin Down"]

/-- The options offered by the toy selectbox (line 147):
`[""] + TOYS`; a submitted `selected_toy` is always one of these. -/
def selectbox_options : List String := "" :: TOYS

/-- The validation block of `main` (lines 163-173): the collected
error list.  A falsy Python string is exactly the empty string, so
`not selected_toy or selected_toy == ""` is `selected_toy == ""`, and
`not balls_code or len(balls_code.strip()) < 1` is as written below. -/
def validate (selected_toy balls_code toy_code _location_state : String) :
    List String :=
  (if selected_toy == "" then ["Please select a toy"] else []) ++
    (if balls_code == "" || (strip balls_code).length < 1 then
      ["Balls code must be at least 1 character"] else []) ++
    (if toy_code == "" || (strip toy_code).length < 1 then
      ["Toy code must be at least 1 character"] else [])

/-- The accepted record built at lines 180-186: timestamp stamped by
the store, codes stripped, missing location normalized to `""`. -/
def mk_new_row (now selected_toy balls_code toy_code location_state : String) :
    Row :=
  ⟨some now, some selected_toy, some (strip balls_code), some (strip toy_code),
    some (if location_state == "" then "" else strip location_state)⟩

/-- The submit path of `main` (lines 162-186) up to the point where a
record exists: errors are collected and displayed (no record), or the
new row is created. -/
def submit (now selected_toy balls_code toy_code location_state : String) :
    Except (List String) Row :=
  if validate selected_toy balls_code toy_code location_state = [] then
    Except.ok (mk_new_row now selected_toy balls_code toy_code location_state)
  else
    Except.error (validate selected_toy balls_code toy_code location_state)

/-- C4 counterexample: the validation code checks only that the toy
field is non-empty, so the out-of-catalog value `"Bogus"` passes
validation and a record is created for it. -/
theorem validate_accepts_noncatalog_toy :
    validate "Bogus" "b1" "t1" "" = [] ∧ "Bogus" ∉ TOYS ∧
      (submit "2024-01-01 10:00:00" "Bogus" "b1" "t1" "").isOk = true := by
  refine ⟨by decide, by decide, ?_⟩
  have h : validate "Bogus" "b1" "t1" "" = [] := by decide
  simp only [submit, if_pos h]
  rfl

/-- C4 (amended): the validator itself checks only non-emptiness of
the toy field; catalog membership holds because the form's selectbox
offers exactly `"" :: TOYS`.  Over that input domain: successful
validation implies the toy is one of the 24 catalog names, and a value
outside the catalog (necessarily the empty selection) is rejected with
the toy-selection error and no record is created. -/
theorem toy_catalog_validation (toy balls toyc loc now : String)
    (hdom : toy ∈ selectbox_options) :
    (validate toy balls toyc loc = [] → toy ∈ TOYS ∧ toy ≠ "") ∧
      (toy ∉ TOYS → "Please select a toy" ∈ validate toy balls toyc loc ∧
        (submit now toy balls toyc loc).isOk = false) := by
  have hd : toy = "" ∨ toy ∈ TOYS := List.mem_cons.mp hdom
  constructor
  · intro hv
    have hne : (toy == "") = false := by
      cases h : toy == ""
      · rfl
      · rw [validate, if_pos h] at hv
        simp at hv
    have hne2 : toy ≠ "" := by simpa using hne
    rcases hd with h | h
    · exact absurd h hne2
    · exact ⟨h, hne2⟩
  · intro hnt
    have htoy : toy = "" := hd.resolve_right hnt
    subst htoy
    have hv : validate "" balls toyc loc ≠ [] := by simp [validate]
    constructor
    · simp [validate]
    · simp only [submit, if_neg hv]
      rfl

theorem toy_catalog_validation_witness :
    (validate "" "b1" "t1" "" = [] → "" ∈ TOYS ∧ "" ≠ "") ∧
      ("" ∉ TOYS → "Please select a toy" ∈ validate "" "b1" "t1" "" ∧
        (submit "2024-01-01 10:00:00" "" "b1" "t1" "").isOk = false) :=
  toy_catalog_validation "" "b1" "t1" "" "2024-01-01 10:00:00" (by decide)

/-- C5: validating the all-empty input returns exactly the three
errors, in order, collected together rather than fail-fast; and
`("Nancy", "b1", "t1", "")` validates successfully into a record whose
`location_state` is the empty string and whose codes are the stripped
inputs. -/
theorem validator_completeness_and_normalization (now : String) :
    validate "" "" "" "" =
      ["Please select a toy", "Balls code must be at least 1 character",
        "Toy code must be at least 1 character"] ∧
      submit now "Nancy" "b1" "t1" "" =
        Except.ok ⟨some now, some "Nancy", some "b1", some "t1", some ""⟩ := by
  constructor
  · decide
  · have h : validate "Nancy" "b1" "t1" "" = [] := by decide
    have hb : strip "b1" = "b1" := by decide
    have ht : strip "t1" = "t1" := by decide
    simp [submit, h, mk_new_row, hb, ht]

/-- The file store: an association of path names to CSV contents
(lists of rows); a write shadows any earlier entry for the same
name. -/
abbrev FS := List (String × List Row)

/-- Embedding of `df.to_csv(name)`: (over)write the file `name` with `content`. -/
def writeFile (fs : FS) (name : String) (content : List Row) : FS :=
  (name, content) :: fs

/-- Embedding of `pd.read_csv(name)` when it succeeds: the most recently written
content for `name`, or `none` when the file does not exist. -/
def readFile (fs : FS) (name : String) : Option (List Row) :=
  match fs.find? (fun p => p.1 == name) with
  | some p => some p.2
  | none => none

theorem readFile_write_self (fs : FS) (n : String) (c : List Row) :
    readFile (writeFile fs n c) n = some c := by
  unfold readFile writeFile
  rw [List.find?_cons_of_pos _ (by simp)]

theorem readFile_write_other (fs : FS) {n m : String} (h : n ≠ m) (c : List Row) :
    readFile (writeFile fs n c) m = readFile fs m := by
  unfold readFile writeFile
  rw [List.find?_cons_of_neg _ (by simp [h])]

/-- Path `CSV_FILE` (line 24): the canonical dataset file. -/
def CSV_FILE : String := "labeled_data.csv"

/-- Path `BACKUP_FILE` (line 26): `os.path.join("backups", "backup_data.csv")`,
the rolling backup rewritten in place. -/
def BACKUP_FILE : String := "backups/backup_data.csv"

/-- The per-item snapshot path (line 73):
`os.path.join(BACKUP_DIR, f"item_{timestamp}.csv")`. -/
def item_backup_name (ts : String) : String := "backups/item_" ++ ts ++ ".csv"

/-- The full-dataset snapshot path (line 96):
`os.path.join(BACKUP_DIR, f"full_backup_{timestamp}.csv")`. -/
def full_backup_name (ts : String) : String :=
  "backups/full_backup_" ++ ts ++ ".csv"

theorem ne_of_data_get {s t : String} (i : Nat)
    (h : s.data[i]? ≠ t.data[i]?) : s ≠ t :=
  fun he => h (by rw [he])

theorem item_name_data8 (ts : String) :
    (item_backup_name ts).data[8]? = some 'i' := by
  show (("backups/item_".data ++ ts.data) ++ ".csv".data)[8]? = some 'i'
  have hl : "backups/item_".data.length = 13 := by decide
  rw [List.getElem?_append_left (by rw [List.length_append]; omega),
    List.getElem?_append_left (by omega)]
  decide

theorem full_name_data8 (ts : String) :
    (full_backup_name ts).data[8]? = some 'f' := by
  show (("backups/full_backup_".data ++ ts.data) ++ ".csv".data)[8]? = some 'f'
  have hl : "backups/full_backup_".data.length = 20 := by decide
  rw [List.getElem?_append_left (by rw [List.length_append]; omega),
    List.getElem?_append_left (by omega)]
  decide

theorem item_name_data0 (ts : String) :
    (item_backup_name ts).data[0]? = some 'b' := by
  show (("backups/item_".data ++ ts.data) ++ ".csv".data)[0]? = some 'b'
  have hl : "backups/item_".data.length = 13 := by decide
  rw [List.getElem?_append_left (by rw [List.length_append]; omega),
    List.getElem?_append_left (by omega)]
  decide

theorem full_name_data0 (ts : String) :
    (full_backup_name ts).data[0]? = some 'b' := by
  show (("backups/full_backup_".data ++ ts.data) ++ ".csv".data)[0]? = some 'b'
  have hl : "backups/full_backup_".data.length = 20 := by decide
  rw [List.getElem?_append_left (by rw [List.length_append]; omega),
    List.getElem?_append_left (by omega)]
  decide

theorem item_ne_full (ts ts' : String) :
    item_backup_name ts ≠ full_backup_name ts' :=
  ne_of_data_get 8 (by rw [item_name_data8, full_name_data8]; decide)

theorem item_ne_backup (ts : String) : item_backup_name ts ≠ BACKUP_FILE :=
  ne_of_data_get 8 (by rw [item_name_data8]; decide)

theorem item_ne_csv (ts : String) : item_backup_name ts ≠ CSV_FILE :=
  ne_of_data_get 0 (by rw [item_name_data0]; decide)

theorem full_ne_backup (ts : String) : full_backup_name ts ≠ BACKUP_FILE :=
  ne_of_data_get 8 (by rw [full_name_data8]; decide)

theorem full_ne_csv (ts : String) : full_backup_name ts ≠ CSV_FILE :=
  ne_of_data_get 0 (by rw [full_name_data0]; decide)

theorem backup_ne_csv : BACKUP_FILE ≠ CSV_FILE := by decide

theorem item_name_inj {ts1 ts2 : String}
    (h : item_backup_name ts1 = item_backup_name ts2) : ts1 = ts2 := by
  have hd : ("backups/item_".data ++ ts1.data) ++ ".csv".data =
      ("backups/item_".data ++ ts2.data) ++ ".csv".data := congrArg String.data h
  exact String.ext (List.append_cancel_left (List.append_cancel_right hd))

theorem full_name_inj {ts1 ts2 : String}
    (h : full_backup_name ts1 = full_backup_name ts2) : ts1 = ts2 := by
  have hd : ("backups/full_backup_".data ++ ts1.data) ++ ".csv".data =
      ("backups/full_backup_".data ++ ts2.data) ++ ".csv".data := congrArg String.data h
  exact String.ext (List.append_cancel_left (List.append_cancel_right hd))

/-- Embedding of `save_backup` (lines 50-74) over the file-store model.  `readOk`
is `true` when the read-append-rewrite of the rolling backup (lines
60-63) succeeds and `false` when it raises (the `except` branch of
lines 64-66, which recreates the rolling backup with only the new
row).  A per-item snapshot `item_{ts}.csv` holding the single new row
is always written last (lines 71-74). -/
def save_backup (readOk : Bool) (ts : String) (new_row : Row) (fs : FS) : FS :=
  let fs1 :=
    match readFile fs BACKUP_FILE with
    | some backup_df =>
        if readOk then writeFile fs BACKUP_FILE (backup_df ++ [new_row])
        else writeFile fs BACKUP_FILE [new_row]
    | none => writeFile fs BACKUP_FILE [new_row]
  writeFile fs1 (item_backup_name ts) [new_row]

/-- Embedding of `save_data` (lines 76-97) over the file-store model: filter and
deduplicate the rows, write them to the canonical file (the retry at
lines 88-91 re-attempts the same write, so a completed save lands this
content), then write the full snapshot `full_backup_{ts}.csv`. -/
def save_data (ts : String) (df : List Row) (fs : FS) : FS :=
  writeFile (writeFile fs CSV_FILE (save_data_rows df)) (full_backup_name ts)
    (save_data_rows df)

/-- One store operation of the persistence core: an `appendBackup`
(`save_backup`) or a canonical save (`save_data`), each tagged with
the second-precision timestamp the clock returned for it. -/
inductive StoreOp where
  | backup (readOk : Bool) (ts : String) (r : Row)
  | save (ts : String) (df : List Row)

def runOp (fs : FS) : StoreOp → FS
  | StoreOp.backup readOk ts r => save_backup readOk ts r fs
  | StoreOp.save ts df => save_data ts df fs

def runOps (fs : FS) : List StoreOp → FS
  | [] => fs
  | op :: ops => runOps (runOp fs op) ops

/-- Does this operation write the per-item snapshot named by `ts`? -/
def opWritesItem (ts : String) : StoreOp → Bool
  | StoreOp.backup _ tsq _ => tsq == ts
  | StoreOp.save _ _ => false

/-- Does this operation write the full snapshot named by `ts`? -/
def opWritesFull (ts : String) : StoreOp → Bool
  | StoreOp.backup _ _ _ => false
  | StoreOp.save tsq _ => tsq == ts

theorem readFile_save_backup_other (readOk : Bool) (ts : String) (r : Row)
    (fs : FS) {n : String} (h1 : n ≠ BACKUP_FILE) (h2 : n ≠ item_backup_name ts) :
    readFile (save_backup readOk ts r fs) n = readFile fs n := by
  unfold save_backup
  cases hb : readFile fs BACKUP_FILE with
  | none =>
    rw [readFile_write_other _ (Ne.symm h2), readFile_write_other _ (Ne.symm h1)]
  | some d =>
    cases readOk <;>
      simp only [Bool.false_eq_true, if_false, if_true] <;>
      rw [readFile_write_other _ (Ne.symm h2), readFile_write_other _ (Ne.symm h1)]

theorem readFile_save_data_other (ts : String) (df : List Row) (fs : FS)
    {n : String} (h1 : n ≠ CSV_FILE) (h2 : n ≠ full_backup_name ts) :
    readFile (save_data ts df fs) n = readFile fs n := by
  unfold save_data
  rw [readFile_write_other _ (Ne.symm h2), readFile_write_other _ (Ne.symm h1)]

theorem runOp_preserves_item {op : StoreOp} {ts : String}
    (h : opWritesItem ts op = false) (fs : FS) :
    readFile (runOp fs op) (item_backup_name ts) =
      readFile fs (item_backup_name ts) := by
  cases op with
  | backup ok tsq r =>
    have hne : tsq ≠ ts := by simpa [opWritesItem] using h
    exact readFile_save_backup_other ok tsq r fs (item_ne_backup ts)
      (fun he => hne (item_name_inj he).symm)
  | save tsq df =>
    exact readFile_save_data_other tsq df fs (item_ne_csv ts) (item_ne_full ts tsq)

theorem runOp_preserves_full {op : StoreOp} {ts : String}
    (h : opWritesFull ts op = false) (fs : FS) :
    readFile (runOp fs op) (full_backup_name ts) =
      readFile fs (full_backup_name ts) := by
  cases op with
  | backup ok tsq r =>
    exact readFile_save_backup_other ok tsq r fs (full_ne_backup ts)
      (Ne.symm (item_ne_full tsq ts))
  | save tsq df =>
    have hne : tsq ≠ ts := by simpa [opWritesFull] using h
    exact readFile_save_data_other tsq df fs (full_ne_csv ts)
      (fun he => hne (full_name_inj he).symm)

theorem runOps_preserves_item {ts : String} {c : List Row} (ops : List StoreOp) :
    ∀ fs : FS, readFile fs (item_backup_name ts) = some c →
      (∀ op ∈ ops, opWritesItem ts op = false) →
      readFile (runOps fs ops) (item_backup_name ts) = some c := by
  induction ops with
  | nil => intro fs h0 _; exact h0
  | cons op ops ih =>
    intro fs h0 hall
    show readFile (runOps (runOp fs op) ops) (item_backup_name ts) = some c
    apply ih
    · rw [runOp_preserves_item (hall op (List.mem_cons_self op ops))]
      exact h0
    · intro o ho
      exact hall o (List.mem_cons_of_mem _ ho)

theorem runOps_preserves_full {ts : String} {c : List Row} (ops : List StoreOp) :
    ∀ fs : FS, readFile fs (full_backup_name ts) = some c →
      (∀ op ∈ ops, opWritesFull ts op = false) →
      readFile (runOps fs ops) (full_backup_name ts) = some c := by
  induction ops with
  | nil => intro fs h0 _; exact h0
  | cons op ops ih =>
    intro fs h0 hall
    show readFile (runOps (runOp fs op) ops) (full_backup_name ts) = some c
    apply ih
    · rw [runOp_preserves_full (hall op (List.mem_cons_self op ops))]
      exact h0
    · intro o ho
      exact hall o (List.mem_cons_of_mem _ ho)

/-- C6 counterexample: two distinct accepted records whose backups
fall within the same second-precision timestamp write the *same*
per-item snapshot file; the second `save_backup` overwrites the
snapshot created for the first, so the snapshot is mutated after
creation and the two records do not get two distinct files. -/
theorem item_snapshot_overwritten :
    readFile (save_backup true "20240101_120000" sampleRecordA [])
        (item_backup_name "20240101_120000") = some [sampleRecordA] ∧
      readFile (save_backup true "20240101_120000" sampleRecordB
          (save_backup true "20240101_120000" sampleRecordA []))
        (item_backup_name "20240101_120000") = some [sampleRecordB] ∧
      sampleRecordA ≠ sampleRecordB :=
  ⟨rfl, rfl, by decide⟩

/-- C6 (amended): provided no later store operation carries the same
second-precision timestamp, a per-item or full-dataset snapshot, once
created, is never mutated or overwritten by any later `save_backup` or
`save_data`; and operations at distinct timestamps write distinct
snapshot files (the code overwrites a snapshot exactly when two
operations of the same kind share a timestamp). -/
theorem snapshot_immutable (ops : List StoreOp) (fs : FS) (ts tsq : String)
    (c : List Row) (hts : ts ≠ tsq) :
    (readFile fs (item_backup_name ts) = some c →
      (∀ op ∈ ops, opWritesItem ts op = false) →
      readFile (runOps fs ops) (item_backup_name ts) = some c) ∧
      (readFile fs (full_backup_name ts) = some c →
        (∀ op ∈ ops, opWritesFull ts op = false) →
        readFile (runOps fs ops) (full_backup_name ts) = some c) ∧
      item_backup_name ts ≠ item_backup_name tsq ∧
      full_backup_name ts ≠ full_backup_name tsq :=
  ⟨fun h0 hall => runOps_preserves_item ops fs h0 hall,
    fun h0 hall => runOps_preserves_full ops fs h0 hall,
    fun he => hts (item_name_inj he),
    fun he => hts (full_name_inj he)⟩

theorem snapshot_immutable_witness :
    readFile
        (runOps (writeFile [] (item_backup_name "20240101_120000") [sampleRecordA])
          [StoreOp.save "20240101_120001" [], StoreOp.backup true "20240101_120002" sampleRecordB])
        (item_backup_name "20240101_120000") = some [sampleRecordA] ∧
      item_backup_name "20240101_120000" ≠ item_backup_name "20240101_120001" :=
  ⟨(snapshot_immutable
      [StoreOp.save "20240101_120001" [], StoreOp.backup true "20240101_120002" sampleRecordB]
      (writeFile [] (item_backup_name "20240101_120000") [sampleRecordA])
      "20240101_120000" "20240101_120001" [sampleRecordA] (by decide)).1
      (readFile_write_self [] (item_backup_name "20240101_120000") [sampleRecordA])
      (by decide),
    (snapshot_immutable
      [StoreOp.save "20240101_120001" [], StoreOp.backup true "20240101_120002" sampleRecordB]
      (writeFile [] (item_backup_name "20240101_120000") [sampleRecordA])
      "20240101_120000" "20240101_120001" [sampleRecordA] (by decide)).2.2.1⟩

/-- C7: for every prior state of the store and every outcome of the
rolling-backup read (including failure, `readOk = false`, after which
the rolling backup holds exactly the new record), `save_backup` always
writes a per-item snapshot containing exactly the accepted record, so
after `appendBackup(r)` and a crash before the canonical save, a
per-item snapshot holding `r` exists. -/
theorem backup_durability (fs : FS) (readOk : Bool) (ts : String) (r : Row) :
    readFile (save_backup readOk ts r fs) (item_backup_name ts) = some [r] ∧
      (readOk = false →
        readFile (save_backup readOk ts r fs) BACKUP_FILE = some [r]) := by
  constructor
  · unfold save_backup
    cases hb : readFile fs BACKUP_FILE with
    | none => exact readFile_write_self _ _ _
    | some d =>
      cases readOk <;> simp only [Bool.false_eq_true, if_false, if_true] <;>
        exact readFile_write_self _ _ _
  · intro hok
    subst hok
    unfold save_backup
    cases hb : readFile fs BACKUP_FILE with
    | none =>
      rw [readFile_write_other _ (item_ne_backup ts)]
      exact readFile_write_self _ _ _
    | some d =>
      simp only [Bool.false_eq_true, if_false]
      rw [readFile_write_other _ (item_ne_backup ts)]
      exact readFile_write_self _ _ _

theorem backup_durability_witness :
    readFile (save_backup false "20240101_120000" sampleRecordA [])
        (item_backup_name "20240101_120000") = some [sampleRecordA] ∧
      readFile (save_backup false "20240101_120000" sampleRecordA [])
        BACKUP_FILE = some [sampleRecordA] :=
  ⟨(backup_durability [] false "20240101_120000" sampleRecordA).1,
    (backup_durability [] false "20240101_120000" sampleRecordA).2 rfl⟩

/-- C10: `save_backup` writes only inside the backup directory — every
file other than the rolling backup and its own per-item snapshot, in
particular the canonical `labeled_data.csv`, is untouched — and it
reads only the rolling backup: its effect on the files it writes is
the same for any two stores agreeing on the rolling backup. -/
theorem save_backup_frame (fs fs2 : FS) (readOk : Bool) (ts : String) (r : Row)
    (n : String) (h1 : n ≠ BACKUP_FILE) (h2 : n ≠ item_backup_name ts)
    (hagree : readFile fs2 BACKUP_FILE = readFile fs BACKUP_FILE) :
    readFile (save_backup readOk ts r fs) n = readFile fs n ∧
      readFile (save_backup readOk ts r fs) CSV_FILE = readFile fs CSV_FILE ∧
      readFile (save_backup readOk ts r fs2) BACKUP_FILE =
        readFile (save_backup readOk ts r fs) BACKUP_FILE ∧
      readFile (save_backup readOk ts r fs2) (item_backup_name ts) =
        readFile (save_backup readOk ts r fs) (item_backup_name ts) := by
  have hroll : ∀ g : FS, readFile g BACKUP_FILE = readFile fs BACKUP_FILE →
      readFile (save_backup readOk ts r g) BACKUP_FILE =
        (match readFile fs BACKUP_FILE with
          | some d => if readOk then some (d ++ [r]) else some [r]
          | none => some [r]) := by
    intro g hg
    unfold save_backup
    rw [hg]
    cases hb : readFile fs BACKUP_FILE with
    | none =>
      rw [readFile_write_other _ (item_ne_backup ts)]
      exact readFile_write_self _ _ _
    | some d =>
      cases readOk <;> simp only [Bool.false_eq_true, if_false, if_true] <;>
        (rw [readFile_write_other _ (item_ne_backup ts)];
         exact readFile_write_self _ _ _)
  refine ⟨readFile_save_backup_other readOk ts r fs h1 h2,
    readFile_save_backup_other readOk ts r fs (Ne.symm backup_ne_csv)
      (Ne.symm (item_ne_csv ts)), ?_, ?_⟩
  · rw [hroll fs2 hagree, hroll fs rfl]
  · have hitem : ∀ g : FS,
        readFile (save_backup readOk ts r g) (item_backup_name ts) = some [r] := by
      intro g
      unfold save_backup
      cases hb : readFile g BACKUP_FILE with
      | none => exact readFile_write_self _ _ _
      | some d =>
        cases readOk <;> simp only [Bool.false_eq_true, if_false, if_true] <;>
          exact readFile_write_self _ _ _
    rw [hitem fs2, hitem fs]

theorem save_backup_frame_witness :
    readFile (save_backup true "20240101_120000" sampleRecordA
        [(CSV_FILE, [sampleRecordB])]) CSV_FILE = some [sampleRecordB] ∧
      readFile (save_backup true "20240101_120000" sampleRecordA
          [(CSV_FILE, [sampleRecordB])]) (full_backup_name "x") =
        readFile [(CSV_FILE, [sampleRecordB])] (full_backup_name "x") := by
  have h := save_backup_frame [(CSV_FILE, [sampleRecordB])]
    [(CSV_FILE, [sampleRecordB])] true "20240101_120000" sampleRecordA
    (full_backup_name "x") (full_ne_backup "x")
    (item_ne_full "20240101_120000" "x").symm rfl
  exact ⟨h.2.1.trans rfl, h.1⟩

/-- C8 counterexample: a stored row mixing missing fields with a
blank field — here four missing cells and one whitespace cell, so
every field is missing or blank — is NOT filtered out by `load()`:
`dropna(how='all')` keeps it (not all cells are missing), and
`astype(str)` renders each missing cell as `"nan"`, which does not
trim to the empty string, so the all-blank test fails too. -/
theorem load_keeps_mixed_blank_row :
    (load_existing_data (some (some ⟨SCHEMA_COLUMNS,
        [⟨none, some " ", none, none, none⟩]⟩))).rows =
      [⟨none, some " ", none, none, none⟩] ∧
      strip " " = "" :=
  ⟨rfl, rfl⟩

/-- C8 (amended): a row appears in `load()`'s result iff it is in the
stored table, is not all-missing (`dropna(how='all')`), and its
stringified fields are not all blank after trimming — where a missing
field stringifies to `"nan"`, hence counts as non-blank; so all-missing
rows and all-present-all-blank rows are absent, but a row mixing
missing fields with blank fields is kept. -/
theorem load_blank_row_filtering (d : Dataset) (r : Row) :
    r ∈ (load_existing_data (some (some d))).rows ↔
      r ∈ d.rows ∧ isAllNaN r = false ∧ isAllBlank r = false := by
  show r ∈ filter_empty_rows d.rows ↔ _
  rw [mem_filter_empty_rows]
  simp [rowKept, and_assoc]

theorem load_blank_row_filtering_witness :
    (⟨some "", some "", some "", some "", some ""⟩ : Row) ∉
      (load_existing_data (some (some ⟨SCHEMA_COLUMNS,
        [⟨some "", some "", some "", some "", some ""⟩]⟩))).rows :=
  fun hm =>
    absurd ((load_blank_row_filtering
      ⟨SCHEMA_COLUMNS, [⟨some "", some "", some "", some "", some ""⟩]⟩
      ⟨some "", some "", some "", some "", some ""⟩).mp hm).2.2 (by decide)

/-- C9: when the canonical file is missing (`st = none`) or exists but
is unreadable/corrupt (`st = some none`), `load()` returns the empty
dataset with the five-column schema instead of propagating the
error. -/
theorem load_failure_returns_empty (st : Option (Option Dataset))
    (h : st = none ∨ st = some none) :
    load_existing_data st = ⟨SCHEMA_COLUMNS, []⟩ := by
  rcases h with h | h <;> subst h <;> rfl

theorem load_failure_returns_empty_witness :
    load_existing_data (some none) = ⟨SCHEMA_COLUMNS, []⟩ :=
  load_failure_returns_empty (some none) (Or.inr rfl)

end KinderJoy
